import Mathlib

/-!
Shallow embedding of the binary transport and decode layer of the
Rigol DHO914S control library (`rigol_dho914s/utils.py` and
`rigol_dho914s/core.py`).

Conventions:
* Python `float` values are modelled as exact rationals (`ℚ`).
* Raw byte buffers are `List Nat` with each element in `[0, 256)`.
* Python functions that can raise are modelled as `Option`/`Except`,
  or take an oracle describing the outcome of each fallible call.
-/

set_option maxRecDepth 10000

namespace Rigol

/-- The parsed waveform preamble dictionary built by
`parse_waveform_preamble` in `utils.py` (field order and names follow
the Python dictionary; `type` is the acquisition type code). -/
structure Preamble where
  format : Int
  type : Int
  points : Int
  count : Int
  x_increment : ℚ
  x_origin : ℚ
  x_reference : Int
  y_increment : ℚ
  y_origin : ℚ
  y_reference : Int
deriving DecidableEq, Repr

/-- Reinterpret one byte as a signed 8-bit integer, as
`np.frombuffer(raw_data, dtype=np.int8)` does elementwise. -/
def toInt8 (b : Nat) : Int :=
  if b < 128 then (b : Int) else (b : Int) - 256

/-- Reinterpret a little-endian byte pair as a signed 16-bit integer,
as `np.frombuffer(raw_data, dtype=np.int16)` does elementwise. -/
def toInt16 (lo hi : Nat) : Int :=
  let v := lo + 256 * hi
  if v < 32768 then (v : Int) else (v : Int) - 65536

/-- `np.frombuffer(raw, dtype=np.int16)`: succeeds exactly when the
buffer length is a multiple of the two-byte element size (otherwise
NumPy raises `ValueError`), pairing bytes little-endian. -/
def frombufferInt16 : List Nat → Option (List Int)
  | [] => some []
  | [_] => none
  | lo :: hi :: rest => (frombufferInt16 rest).map fun t => toInt16 lo hi :: t

/-- The affine code-to-voltage transform
`(c - y_reference) * y_increment + y_origin` from
`convert_raw_data_to_voltage`. -/
def affineVolt (preamble : Preamble) (c : Int) : ℚ :=
  ((c : ℚ) - (preamble.y_reference : ℚ)) * preamble.y_increment + preamble.y_origin

/-- `convert_raw_data_to_voltage(raw_data, preamble)` from `utils.py`:
format 0 reinterprets every byte as int8, format 1 reinterprets byte
pairs as int16 (failing on odd length, as `np.frombuffer` does), any
other format raises; the affine scaling is applied to every code.
The function never consults `preamble.points`. -/
def convert_raw_data_to_voltage (raw_data : List Nat) (preamble : Preamble) :
    Option (List ℚ) :=
  if preamble.format = 0 then
    some ((raw_data.map toInt8).map (affineVolt preamble))
  else if preamble.format = 1 then
    (frombufferInt16 raw_data).map fun cs => cs.map (affineVolt preamble)
  else
    none

/-- `create_time_array(preamble)` from `utils.py`:
`np.arange(points) * x_increment + x_origin` (an empty array when
`points ≤ 0`, as `np.arange` yields). -/
def create_time_array (preamble : Preamble) : List ℚ :=
  (List.range preamble.points.toNat).map fun i : ℕ =>
    (i : ℚ) * preamble.x_increment + preamble.x_origin

/-- ASCII whitespace as recognised by Python's `str.strip()`. -/
def isPySpace (c : Char) : Bool :=
  c = ' ' || c = '\t' || c = '\n' || c = '\r' || c = '\x0b' || c = '\x0c'

/-- Python `s.strip()` on a character list. -/
def pystrip (s : List Char) : List Char :=
  ((s.dropWhile isPySpace).reverse.dropWhile isPySpace).reverse

/-- Python `s.split(',')`: always at least one field; a separator at
either end yields an empty field. -/
def splitComma : List Char → List (List Char)
  | [] => [[]]
  | c :: rest =>
      if c = ',' then [] :: splitComma rest
      else
        match splitComma rest with
        | [] => [[c]]
        | f :: fs => (c :: f) :: fs

/-- Value of a digit string (most significant first). -/
def digitsVal (l : List Char) : Nat :=
  l.foldl (fun a c => 10 * a + (c.toNat - 48)) 0

/-- A non-empty all-digit string, or failure. -/
def parseDigits (l : List Char) : Option Nat :=
  if !l.isEmpty && l.all (fun c => c.isDigit) then some (digitsVal l) else none

/-- Optional sign followed by digits (no surrounding whitespace). -/
def parseSignedDigits : List Char → Option Int
  | '+' :: rest => (parseDigits rest).map fun n => (n : Int)
  | '-' :: rest => (parseDigits rest).map fun n => -(n : Int)
  | rest => (parseDigits rest).map fun n => (n : Int)

/-- Python `int(s)`: strip whitespace, then sign and decimal digits
(underscore separators and non-ASCII digit forms are not modelled). -/
def pyint (s : List Char) : Option Int :=
  parseSignedDigits (pystrip s)

/-- Split a list at the first character satisfying `p`, keeping the
remainder when a split point exists. -/
def splitFirst (p : Char → Bool) : List Char → List Char × Option (List Char)
  | [] => ([], none)
  | c :: rest =>
      if p c then ([], some rest)
      else
        let (a, b) := splitFirst p rest
        (c :: a, b)

/-- An unsigned decimal mantissa `ddd`, `ddd.ddd`, `.ddd` or `ddd.`
(at least one digit overall), as an exact rational. -/
def parseMantissa (l : List Char) : Option ℚ :=
  match splitFirst (fun c => c = '.') l with
  | (ip, none) => (parseDigits ip).map fun n => (n : ℚ)
  | (ip, some fp) =>
      if (ip.all fun c => c.isDigit) && (fp.all fun c => c.isDigit) &&
          !(ip.isEmpty && fp.isEmpty) then
        some ((digitsVal ip : ℚ) + (digitsVal fp : ℚ) / ((10 : ℚ) ^ fp.length))
      else none

/-- Leading sign of a Python float literal. -/
def floatSign : List Char → ℚ × List Char
  | '+' :: rest => (1, rest)
  | '-' :: rest => (-1, rest)
  | rest => (1, rest)

/-- Python `float(s)` for finite decimal literals with an optional
exponent (`inf`/`nan` and underscore separators are not modelled). -/
def pyfloat (s : List Char) : Option ℚ :=
  let sb := floatSign (pystrip s)
  match splitFirst (fun c => c = 'e' || c = 'E') sb.2 with
  | (mant, none) => (parseMantissa mant).map fun m => sb.1 * m
  | (mant, some ex) => do
      let m ← parseMantissa mant
      let k ← parseSignedDigits ex
      pure (sb.1 * m * (10 : ℚ) ^ k)

/-- `parse_waveform_preamble(preamble_string)` from `utils.py`: strip the
input, split it on commas, raise `ValueError` when fewer than 10 fields
result, then build the preamble dictionary from the first ten fields
positionally, converting each with Python `int`/`float` (whose failures
also raise `ValueError`, modelled as `none`). -/
def parse_waveform_preamble (preamble_string : List Char) : Option Preamble :=
  let parts := splitComma (pystrip preamble_string)
  if parts.length < 10 then none
  else do
    let f ← pyint (parts.getD 0 [])
    let t ← pyint (parts.getD 1 [])
    let pts ← pyint (parts.getD 2 [])
    let cnt ← pyint (parts.getD 3 [])
    let xi ← pyfloat (parts.getD 4 [])
    let xo ← pyfloat (parts.getD 5 [])
    let xr ← pyint (parts.getD 6 [])
    let yi ← pyfloat (parts.getD 7 [])
    let yo ← pyfloat (parts.getD 8 [])
    let yr ← pyint (parts.getD 9 [])
    pure ⟨f, t, pts, cnt, xi, xo, xr, yi, yo, yr⟩

/-- The descriptor of the worked example in the specification:
format 0 (8-bit), 4 points, `x_increment = 1e-6`, `y_increment = 0.01`,
all origins and references zero. -/
def exampleDesc : Preamble :=
  { format := 0, type := 0, points := 4, count := 1
    x_increment := 1 / 1000000, x_origin := 0, x_reference := 0
    y_increment := 1 / 100, y_origin := 0, y_reference := 0 }

/-- `np.frombuffer(·, np.int16)` succeeds exactly on even-length buffers,
yielding half as many codes; odd-length buffers are an error. -/
theorem frombufferInt16_length :
    ∀ raw : List Nat,
      (raw.length % 2 = 0 →
        ∃ cs, frombufferInt16 raw = some cs ∧ cs.length = raw.length / 2) ∧
      (raw.length % 2 = 1 → frombufferInt16 raw = none) := by
  intro raw
  induction raw using frombufferInt16.induct with
  | case1 => simp [frombufferInt16]
  | case2 x => simp [frombufferInt16]
  | case3 lo hi rest ih =>
      refine ⟨fun h => ?_, fun h => ?_⟩
      · have h2 : rest.length % 2 = 0 := by
          simp only [List.length_cons] at h; omega
        obtain ⟨cs, hcs, hlen⟩ := ih.1 h2
        refine ⟨toInt16 lo hi :: cs, by simp [frombufferInt16, hcs], ?_⟩
        simp only [List.length_cons, hlen]; omega
      · have h2 : rest.length % 2 = 1 := by
          simp only [List.length_cons] at h; omega
        simp [frombufferInt16, ih.2 h2]

/-- C1 (counterexample): the claim says decoding fails whenever the buffer
length differs from `point_count * sample_width`; but for the 8-bit
descriptor `exampleDesc` (`points = 4`, sample width 1) and the 3-byte
buffer `[0, 0, 0]`, `convert_raw_data_to_voltage` succeeds and returns
3 samples — it never consults `points`. -/
theorem C1_counterexample :
    ([0, 0, 0] : List Nat).length ≠ exampleDesc.points.toNat * 1 ∧
    convert_raw_data_to_voltage [0, 0, 0] exampleDesc = some [0, 0, 0] := by
  constructor
  · decide
  · norm_num [convert_raw_data_to_voltage, affineVolt, toInt8, exampleDesc]

/-- C1 (amended): `convert_raw_data_to_voltage` performs no
`point_count` check. For format 0 it succeeds on every buffer and
returns one sample per byte; for format 1 it succeeds exactly when
the buffer length is even (the `np.frombuffer` element-size check)
and then returns `length / 2` samples; every other format code fails. -/
theorem C1_amended (raw : List Nat) (p : Preamble) :
    (p.format = 0 →
      convert_raw_data_to_voltage raw p = some ((raw.map toInt8).map (affineVolt p)) ∧
      ((raw.map toInt8).map (affineVolt p)).length = raw.length) ∧
    (p.format = 1 →
      ((∃ vs, convert_raw_data_to_voltage raw p = some vs ∧ vs.length = raw.length / 2) ↔
        raw.length % 2 = 0)) ∧
    (p.format ≠ 0 → p.format ≠ 1 → convert_raw_data_to_voltage raw p = none) := by
  refine ⟨fun h0 => ?_, fun h1 => ?_, fun h0 h1 => ?_⟩
  · exact ⟨by simp [convert_raw_data_to_voltage, h0], by simp⟩
  · have hfmt : ¬ p.format = 0 := by omega
    constructor
    · rintro ⟨vs, hvs, hlen⟩
      by_contra hodd
      have hodd1 : raw.length % 2 = 1 := by omega
      have := (frombufferInt16_length raw).2 hodd1
      simp [convert_raw_data_to_voltage, hfmt, h1, this] at hvs
    · intro heven
      obtain ⟨cs, hcs, hlen⟩ := (frombufferInt16_length raw).1 heven
      exact ⟨cs.map (affineVolt p),
        by simp [convert_raw_data_to_voltage, hfmt, h1, hcs],
        by simp [hlen]⟩
  · simp [convert_raw_data_to_voltage, h0, h1]

/-- C1 (witness for the amended theorem), at format 0 with a 3-byte buffer. -/
theorem C1_amended_witness :
    convert_raw_data_to_voltage [0, 0, 0] exampleDesc =
      some (([0, 0, 0].map toInt8).map (affineVolt exampleDesc)) :=
  ((C1_amended [0, 0, 0] exampleDesc).1 rfl).1

/-- C4: decoding applies `(c - y_reference) * y_increment + y_origin` to
every signed raw code (for both the 8-bit and the 16-bit encodings), and
on the specification's worked example — descriptor `exampleDesc` and raw
bytes `[10, 246, 0, 127]` (246 is the two's-complement byte for −10) —
it yields voltages `[0.10, −0.10, 0.00, 1.27]` and timestamps
`[0, 1e-6, 2e-6, 3e-6]`. -/
theorem C4_affine_decode_example :
    (∀ (p : Preamble) (raw : List Nat), p.format = 0 →
        convert_raw_data_to_voltage raw p = some ((raw.map toInt8).map (affineVolt p))) ∧
    (∀ (p : Preamble) (raw : List Nat) (cs : List Int), p.format = 1 →
        frombufferInt16 raw = some cs →
        convert_raw_data_to_voltage raw p = some (cs.map (affineVolt p))) ∧
    convert_raw_data_to_voltage [10, 246, 0, 127] exampleDesc =
      some [1 / 10, -(1 / 10), 0, 127 / 100] ∧
    create_time_array exampleDesc = [0, 1 / 1000000, 2 / 1000000, 3 / 1000000] := by
  refine ⟨fun p raw h0 => by simp [convert_raw_data_to_voltage, h0],
    fun p raw cs h1 hcs => ?_, ?_, ?_⟩
  · have hfmt : ¬ p.format = 0 := by omega
    simp [convert_raw_data_to_voltage, hfmt, h1, hcs]
  · norm_num [convert_raw_data_to_voltage, affineVolt, toInt8, exampleDesc]
  · have h : create_time_array exampleDesc =
        (List.range 4).map fun i : ℕ => (i : ℚ) * (1 / 1000000) + 0 := rfl
    rw [h]
    norm_num [List.range_succ]

/-- C4 (witness), instantiating the affine law at a one-byte buffer. -/
theorem C4_witness :
    convert_raw_data_to_voltage [5] exampleDesc =
      some (([5].map toInt8).map (affineVolt exampleDesc)) :=
  C4_affine_decode_example.1 exampleDesc [5] rfl

/-- C7: the time axis has `points` entries with
`timestamp_i = i * x_increment + x_origin`, and is strictly increasing
when `x_increment > 0`, strictly decreasing when `x_increment < 0`, and
constantly `x_origin` when `x_increment = 0`. -/
theorem C7_time_axis (p : Preamble) :
    (create_time_array p).length = p.points.toNat ∧
    (∀ i : Nat, i < p.points.toNat →
        (create_time_array p).getD i 0 = (i : ℚ) * p.x_increment + p.x_origin) ∧
    (0 < p.x_increment → (create_time_array p).Pairwise (· < ·)) ∧
    (p.x_increment < 0 → (create_time_array p).Pairwise (· > ·)) ∧
    (p.x_increment = 0 → ∀ t ∈ create_time_array p, t = p.x_origin) := by
  refine ⟨by rw [create_time_array, List.length_map, List.length_range],
    fun i hi => ?_, fun hpos => ?_, fun hneg => ?_, fun h0 t ht => ?_⟩
  · rw [create_time_array, List.getD_eq_getElem?_getD, List.getElem?_map,
      List.getElem?_range hi]
    rfl
  · rw [create_time_array]
    exact List.Pairwise.map _
      (fun a b hab =>
        add_lt_add_right (mul_lt_mul_of_pos_right (by exact_mod_cast hab) hpos) _)
      (List.pairwise_lt_range _)
  · rw [create_time_array]
    exact List.Pairwise.map _
      (fun a b hab =>
        add_lt_add_right (mul_lt_mul_of_neg_right (by exact_mod_cast hab) hneg) _)
      (List.pairwise_lt_range _)
  · rw [create_time_array] at ht
    obtain ⟨i, -, rfl⟩ := List.mem_map.1 ht
    rw [h0]
    ring

/-- C7 (witness): the first timestamp of the example descriptor. -/
theorem C7_witness :
    (create_time_array exampleDesc).getD 0 0 =
      (0 : ℚ) * exampleDesc.x_increment + exampleDesc.x_origin :=
  (C7_time_axis exampleDesc).2.1 0 (by decide)

/-- C9: sample decoding and time-axis construction are deterministic pure
functions of `(descriptor, buffer)`: equal inputs give equal outputs. -/
theorem C9_decode_pure (d₁ d₂ : Preamble) (b₁ b₂ : List Nat)
    (hd : d₁ = d₂) (hb : b₁ = b₂) :
    convert_raw_data_to_voltage b₁ d₁ = convert_raw_data_to_voltage b₂ d₂ ∧
    create_time_array d₁ = create_time_array d₂ := by
  subst hd; subst hb; exact ⟨rfl, rfl⟩

/-- C9 (witness), at the example descriptor and a concrete buffer. -/
theorem C9_witness :
    convert_raw_data_to_voltage [1, 2] exampleDesc =
      convert_raw_data_to_voltage [1, 2] exampleDesc ∧
    create_time_array exampleDesc = create_time_array exampleDesc :=
  C9_decode_pure exampleDesc exampleDesc [1, 2] [1, 2] rfl rfl

/-- The `i`-th comma-separated field consulted by
`parse_waveform_preamble` (after the outer strip). -/
def preambleField (s : List Char) (i : Nat) : List Char :=
  (splitComma (pystrip s)).getD i []

/-- The field-conversion chain of `parse_waveform_preamble`, over the ten
already-extracted conversion outcomes: it fails exactly when one
conversion fails, and on success the descriptor holds the converted
values positionally. -/
theorem preambleChain_spec (o0 o1 o2 o3 : Option Int) (o4 o5 : Option ℚ)
    (o6 : Option Int) (o7 o8 : Option ℚ) (o9 : Option Int) :
    ((do
        let f ← o0
        let t ← o1
        let pts ← o2
        let cnt ← o3
        let xi ← o4
        let xo ← o5
        let xr ← o6
        let yi ← o7
        let yo ← o8
        let yr ← o9
        pure (⟨f, t, pts, cnt, xi, xo, xr, yi, yo, yr⟩ : Preamble)) = none ↔
      o0 = none ∨ o1 = none ∨ o2 = none ∨ o3 = none ∨ o4 = none ∨
      o5 = none ∨ o6 = none ∨ o7 = none ∨ o8 = none ∨ o9 = none) ∧
    (∀ d : Preamble,
      (do
        let f ← o0
        let t ← o1
        let pts ← o2
        let cnt ← o3
        let xi ← o4
        let xo ← o5
        let xr ← o6
        let yi ← o7
        let yo ← o8
        let yr ← o9
        pure (⟨f, t, pts, cnt, xi, xo, xr, yi, yo, yr⟩ : Preamble)) = some d →
      o0 = some d.format ∧ o1 = some d.type ∧ o2 = some d.points ∧
      o3 = some d.count ∧ o4 = some d.x_increment ∧ o5 = some d.x_origin ∧
      o6 = some d.x_reference ∧ o7 = some d.y_increment ∧
      o8 = some d.y_origin ∧ o9 = some d.y_reference) := by
  rcases o0 with _ | f
  · simp
  rcases o1 with _ | t
  · simp
  rcases o2 with _ | pts
  · simp
  rcases o3 with _ | cnt
  · simp
  rcases o4 with _ | xi
  · simp
  rcases o5 with _ | xo
  · simp
  rcases o6 with _ | xr
  · simp
  rcases o7 with _ | yi
  · simp
  rcases o8 with _ | yo
  · simp
  rcases o9 with _ | yr
  · simp
  refine ⟨by simp, fun d hd => ?_⟩
  obtain rfl := Option.some.inj (by simpa using hd)
  exact ⟨rfl, rfl, rfl, rfl, rfl, rfl, rfl, rfl, rfl, rfl⟩

/-- C8: `parse_waveform_preamble` fails (raises `ValueError`) exactly when
the stripped input splits into fewer than 10 comma-separated fields or one
of the ten positional conversions (`int` for fields 0–3, 6, 9; `float` for
fields 4, 5, 7, 8) fails; on success the descriptor's fields are the first
ten fields converted positionally. -/
theorem C8_preamble_parse (s : List Char) :
    (parse_waveform_preamble s = none ↔
      (splitComma (pystrip s)).length < 10 ∨
      pyint (preambleField s 0) = none ∨ pyint (preambleField s 1) = none ∨
      pyint (preambleField s 2) = none ∨ pyint (preambleField s 3) = none ∨
      pyfloat (preambleField s 4) = none ∨ pyfloat (preambleField s 5) = none ∨
      pyint (preambleField s 6) = none ∨ pyfloat (preambleField s 7) = none ∨
      pyfloat (preambleField s 8) = none ∨ pyint (preambleField s 9) = none) ∧
    (∀ d : Preamble, parse_waveform_preamble s = some d →
      pyint (preambleField s 0) = some d.format ∧
      pyint (preambleField s 1) = some d.type ∧
      pyint (preambleField s 2) = some d.points ∧
      pyint (preambleField s 3) = some d.count ∧
      pyfloat (preambleField s 4) = some d.x_increment ∧
      pyfloat (preambleField s 5) = some d.x_origin ∧
      pyint (preambleField s 6) = some d.x_reference ∧
      pyfloat (preambleField s 7) = some d.y_increment ∧
      pyfloat (preambleField s 8) = some d.y_origin ∧
      pyint (preambleField s 9) = some d.y_reference) := by
  simp only [preambleField]
  by_cases hlen : (splitComma (pystrip s)).length < 10
  · simp [parse_waveform_preamble, hlen]
  · have hspec := preambleChain_spec
      (pyint ((splitComma (pystrip s)).getD 0 []))
      (pyint ((splitComma (pystrip s)).getD 1 []))
      (pyint ((splitComma (pystrip s)).getD 2 []))
      (pyint ((splitComma (pystrip s)).getD 3 []))
      (pyfloat ((splitComma (pystrip s)).getD 4 []))
      (pyfloat ((splitComma (pystrip s)).getD 5 []))
      (pyint ((splitComma (pystrip s)).getD 6 []))
      (pyfloat ((splitComma (pystrip s)).getD 7 []))
      (pyfloat ((splitComma (pystrip s)).getD 8 []))
      (pyint ((splitComma (pystrip s)).getD 9 []))
    unfold parse_waveform_preamble
    rw [if_neg hlen]
    refine ⟨?_, hspec.2⟩
    rw [hspec.1]
    simp [hlen]

/-- A well-formed 10-field preamble string, `0,0,4,1,1,0,0,1,0,0`. -/
def goodPreambleStr : List Char :=
  ['0', ',', '0', ',', '4', ',', '1', ',', '1', ',',
   '0', ',', '0', ',', '1', ',', '0', ',', '0']

/-- The descriptor that `goodPreambleStr` parses to. -/
def goodPreambleDesc : Preamble :=
  { format := 0, type := 0, points := 4, count := 1
    x_increment := 1, x_origin := 0, x_reference := 0
    y_increment := 1, y_origin := 0, y_reference := 0 }

/-- C8 (witness): the parser applied to a malformed 2-field input and to
the well-formed `goodPreambleStr`. -/
theorem C8_witness :
    parse_waveform_preamble ['1', ',', '2'] = none ∧
    pyint (preambleField goodPreambleStr 0) = some goodPreambleDesc.format ∧
    pyint (preambleField goodPreambleStr 1) = some goodPreambleDesc.type ∧
    pyint (preambleField goodPreambleStr 2) = some goodPreambleDesc.points ∧
    pyint (preambleField goodPreambleStr 3) = some goodPreambleDesc.count ∧
    pyfloat (preambleField goodPreambleStr 4) = some goodPreambleDesc.x_increment ∧
    pyfloat (preambleField goodPreambleStr 5) = some goodPreambleDesc.x_origin ∧
    pyint (preambleField goodPreambleStr 6) = some goodPreambleDesc.x_reference ∧
    pyfloat (preambleField goodPreambleStr 7) = some goodPreambleDesc.y_increment ∧
    pyfloat (preambleField goodPreambleStr 8) = some goodPreambleDesc.y_origin ∧
    pyint (preambleField goodPreambleStr 9) = some goodPreambleDesc.y_reference :=
  ⟨(C8_preamble_parse ['1', ',', '2']).1.mpr (Or.inl (by decide)),
   (C8_preamble_parse goodPreambleStr).2 goodPreambleDesc (by
     have hsplit : splitComma (pystrip goodPreambleStr) =
         [['0'], ['0'], ['4'], ['1'], ['1'], ['0'], ['0'], ['1'], ['0'], ['0']] := by
       decide
     have hi0 : pyint ['0'] = some 0 := by decide
     have hi1 : pyint ['1'] = some 1 := by decide
     have hi4 : pyint ['4'] = some 4 := by decide
     have hf0 : pyfloat ['0'] = some 0 := by
       simp +decide [pyfloat, pystrip, floatSign, splitFirst, parseMantissa,
         parseDigits, digitsVal, isPySpace]
     have hf1 : pyfloat ['1'] = some 1 := by
       simp +decide [pyfloat, pystrip, floatSign, splitFirst, parseMantissa,
         parseDigits, digitsVal, isPySpace]
     simp [parse_waveform_preamble, hsplit, hi0, hi1, hi4, hf0, hf1,
       goodPreambleDesc])⟩

/-! ## Transport retry (`retry_on_failure` in `utils.py`) -/

/-- Execution trace of the loop body of the `retry_on_failure` wrapper:
`f k` is the outcome of the `k`-th attempt of the wrapped call (`k`
counts from the current attempt), the second argument is the number of
attempts still allowed after the current one (`max_retries - attempt`).
Returns the value returned or exception raised, the number of attempts
made, and the number of `time.sleep(delay)` calls performed. -/
def retryGo {E A : Type} (f : Nat → Except E A) : Nat → Nat → Except E A × Nat × Nat
  | k, 0 => (f k, 1, 0)
  | k, n + 1 =>
      match f k with
      | Except.ok a => (Except.ok a, 1, 0)
      | Except.error _ =>
          let r := retryGo f (k + 1) n
          (r.1, r.2.1 + 1, r.2.2 + 1)

/-- `retry_on_failure(max_retries, delay)` from `utils.py` applied to a
wrapped callable whose `k`-th invocation has outcome `f k`: runs the
`for attempt in range(max_retries + 1)` loop, sleeping `delay` seconds
before each retry, re-raising the last exception when every attempt
fails. -/
def retry_on_failure {E A : Type} (max_retries : Nat) (f : Nat → Except E A) :
    Except E A × Nat × Nat :=
  retryGo f 0 max_retries

/-- The fixed `delay` argument (seconds) that `write`, `query` and
`query_binary` inherit from the decorator's default. -/
def retryDelaySeconds : ℚ := 1 / 10

/-- `RigolDHO914S.write` / `query` / `query_binary` in `core.py` are each
wrapped by `@retry_on_failure(max_retries=3)`; `f k` is the outcome of
the `k`-th execution of the method body (an `Except` carrying the
`CommandError` the body raises when the instrument operation fails). -/
def transportCall {E A : Type} (f : Nat → Except E A) : Except E A × Nat × Nat :=
  retry_on_failure 3 f

/-- Behaviour of the retry loop for any fuel: between 1 and `n + 1`
attempts happen, the result is the outcome of the final attempt, every
earlier attempt failed, the loop only stops early on a success, and one
sleep precedes every attempt after the first. -/
theorem retryGo_spec {E A : Type} (f : Nat → Except E A) :
    ∀ n k,
      1 ≤ (retryGo f k n).2.1 ∧
      (retryGo f k n).2.1 ≤ n + 1 ∧
      (retryGo f k n).1 = f (k + (retryGo f k n).2.1 - 1) ∧
      (∀ j, j < (retryGo f k n).2.1 - 1 → ∃ e, f (k + j) = Except.error e) ∧
      ((∃ a, (retryGo f k n).1 = Except.ok a) ∨ (retryGo f k n).2.1 = n + 1) ∧
      (retryGo f k n).2.2 = (retryGo f k n).2.1 - 1 := by
  intro n
  induction n with
  | zero =>
      intro k
      exact ⟨le_refl 1, le_refl 1, by simp [retryGo], by simp [retryGo],
        Or.inr rfl, rfl⟩
  | succ n ih =>
      intro k
      cases hk : f k with
      | ok a =>
          refine ⟨?_, ?_, ?_, ?_, ?_, ?_⟩ <;> simp [retryGo, hk]
      | error e =>
          obtain ⟨h1, h2, h3, h4, h5, h6⟩ := ih (k + 1)
          have hred : retryGo f k (n + 1) =
              ((retryGo f (k + 1) n).1, (retryGo f (k + 1) n).2.1 + 1,
                (retryGo f (k + 1) n).2.2 + 1) := by
            simp [retryGo, hk]
          rw [hred]
          dsimp only
          refine ⟨by omega, by omega, ?_, ?_, ?_, by omega⟩
          · rw [h3]
            congr 1
            omega
          · intro j hj
            match j with
            | 0 => exact ⟨e, hk⟩
            | j + 1 =>
                obtain ⟨e', he'⟩ := h4 j (by omega)
                exact ⟨e', by rw [show k + (j + 1) = k + 1 + j by omega]; exact he'⟩
          · rcases h5 with ⟨a, ha⟩ | heq
            · exact Or.inl ⟨a, ha⟩
            · exact Or.inr (by omega)

/-- C2 (counterexample): the claim says each transport call attempts the
underlying operation at most 3 times; with an always-failing operation
(error `k` on attempt `k`) the wrapper makes 4 attempts — `range(3 + 1)`
— before surfacing the last error, `error 3`. -/
theorem C2_counterexample :
    (transportCall (fun k => (Except.error k : Except Nat Unit))).2.1 = 4 ∧
    3 < (transportCall (fun k => (Except.error k : Except Nat Unit))).2.1 ∧
    (transportCall (fun k => (Except.error k : Except Nat Unit))).1 =
      Except.error 3 :=
  ⟨rfl, by decide, rfl⟩

/-- C2 (amended): every `write`/`query`/`query_binary` call attempts the
underlying operation at most 4 times in total (one initial attempt plus
`max_retries = 3` retries); the first success returns immediately (all
attempts before the final one failed, and the loop runs to attempt 4
only if no earlier attempt succeeded); a fixed `0.1 s` sleep is inserted
before every retry (one fewer sleep than attempts); and the outcome of
the final attempt — in particular the last error, when all fail — is
what the caller sees. -/
theorem C2_amended {E A : Type} (f : Nat → Except E A) :
    1 ≤ (transportCall f).2.1 ∧
    (transportCall f).2.1 ≤ 4 ∧
    (transportCall f).1 = f ((transportCall f).2.1 - 1) ∧
    (∀ k, k < (transportCall f).2.1 - 1 → ∃ e, f k = Except.error e) ∧
    ((∃ a, (transportCall f).1 = Except.ok a) ∨ (transportCall f).2.1 = 4) ∧
    (transportCall f).2.2 = (transportCall f).2.1 - 1 := by
  obtain ⟨h1, h2, h3, h4, h5, h6⟩ := retryGo_spec f 3 0
  refine ⟨h1, h2, by simpa using h3, ?_, h5, h6⟩
  intro k hk
  obtain ⟨e, he⟩ := h4 k hk
  exact ⟨e, by simpa using he⟩

/-- An oracle that fails once and then succeeds. -/
def mixedOracle : Nat → Except Nat Unit :=
  fun k => if k = 0 then Except.error 0 else Except.ok ()

/-- C2 (witness for the amended theorem): with `mixedOracle` the wrapper
stops after the second attempt, and the first attempt indeed failed. -/
theorem C2_witness : ∃ e, mixedOracle 0 = Except.error e :=
  (C2_amended mixedOracle).2.2.2.1 0 (by decide)

/-! ## Measurement dictionaries (`get_voltage_measurements` /
`get_time_measurements` in `core.py`) -/

/-- The five `(key, MeasurementTypes code)` pairs of
`get_voltage_measurements`, in source order. -/
def voltage_types : List (String × String) :=
  [("vpp", "VPP"), ("vmax", "VMAX"), ("vmin", "VMIN"),
   ("vrms", "VRMS"), ("vavg", "VAVE")]

/-- The five `(key, MeasurementTypes code)` pairs of
`get_time_measurements`, in source order. -/
def time_types : List (String × String) :=
  [("frequency", "FREQ"), ("period", "PER"), ("rise_time", "RTIM"),
   ("fall_time", "FTIM"), ("pulse_width", "PWID")]

/-- The `try: measurements[name] = self.measure(...) except:
measurements[name] = None` pattern around one measure call whose
outcome is `r`. -/
def tryMeasure (r : Except String ℚ) : Option ℚ :=
  match r with
  | Except.ok v => some v
  | Except.error _ => none

/-- `get_voltage_measurements(channel)` from `core.py`; the oracle
`m channel mt` is the outcome of `self.measure(mt, channel)` (which
itself raises on command failure, unparseable results, or an invalid
channel — all swallowed by the bare `except`). -/
def get_voltage_measurements (m : Int → String → Except String ℚ)
    (channel : Int) : List (String × Option ℚ) :=
  voltage_types.map fun nt => (nt.1, tryMeasure (m channel nt.2))

/-- `get_time_measurements(channel)` from `core.py`. -/
def get_time_measurements (m : Int → String → Except String ℚ)
    (channel : Int) : List (String × Option ℚ) :=
  time_types.map fun nt => (nt.1, tryMeasure (m channel nt.2))

/-- C10: for every channel and every oracle behaviour, both measurement
dictionaries are total (no exception escapes), carry exactly their five
fixed keys in order, map each key to the guarded outcome of its own
measure call, and that guarded outcome is `None` precisely when the call
raised, and the measured value otherwise. -/
theorem C10_measurement_dicts (m : Int → String → Except String ℚ)
    (channel : Int) :
    ((get_voltage_measurements m channel).map Prod.fst =
      ["vpp", "vmax", "vmin", "vrms", "vavg"]) ∧
    ((get_time_measurements m channel).map Prod.fst =
      ["frequency", "period", "rise_time", "fall_time", "pulse_width"]) ∧
    (∀ nt ∈ voltage_types,
      (get_voltage_measurements m channel).lookup nt.1 =
        some (tryMeasure (m channel nt.2))) ∧
    (∀ nt ∈ time_types,
      (get_time_measurements m channel).lookup nt.1 =
        some (tryMeasure (m channel nt.2))) ∧
    (∀ r : Except String ℚ,
      (tryMeasure r = none ↔ ∃ e, r = Except.error e) ∧
      (∀ v, tryMeasure r = some v → r = Except.ok v)) := by
  refine ⟨rfl, rfl, ?_, ?_, ?_⟩
  · intro nt hnt
    fin_cases hnt <;> rfl
  · intro nt hnt
    fin_cases hnt <;> rfl
  · intro r
    rcases r with e | v <;> simp [tryMeasure]

/-- C10 (witness): an always-raising oracle yields a `vpp` entry of
`None`, through the theorem's lookup clause. -/
theorem C10_witness :
    (get_voltage_measurements (fun _ _ => Except.error "boom") 1).lookup "vpp" =
      some (tryMeasure (Except.error "boom")) :=
  (C10_measurement_dicts (fun _ _ => Except.error "boom") 1).2.2.1
    ("vpp", "VPP") (by decide)

/-! ## Chunked image capture (`take_screenshot` in `core.py`) -/

/-- The PNG start signature `b'\x89PNG'` searched for in the
accumulating buffer. -/
def pngSig : List Nat := [137, 80, 78, 71]

/-- The PNG end marker `b'IEND\xae\x42\x60\x82'`. -/
def iendMarker : List Nat := [73, 69, 78, 68, 174, 66, 96, 130]

/-- Python `bytes.find(pat)`: index of the first occurrence of `pat`,
if any. -/
def findSeq (pat : List Nat) : List Nat → Option Nat
  | [] => if pat.isEmpty then some 0 else none
  | b :: rest =>
      if pat.isPrefixOf (b :: rest) then some 0
      else (findSeq pat rest).map (· + 1)

/-- Python `pat in buf` for byte strings. -/
def containsSeq (pat buf : List Nat) : Bool :=
  (findSeq pat buf).isSome

/-- Outcome of one `self.instrument.read_bytes(1024)` call inside the
screenshot read loop. -/
inductive ReadOutcome : Type
  | chunk (data : List Nat)
  | timeout
  | fail
deriving DecidableEq

/-- The `for attempt in range(max_attempts)` read loop of
`take_screenshot` (`core.py` lines 327–352), with `reads k` the outcome
of the `k`-th `read_bytes(1024)` call: append non-empty chunks, stop on
an empty chunk, on a buffer holding both the PNG signature and the IEND
marker, on a timeout (normal end of data), or on a non-timeout
`VisaIOError` (re-raised). Returns the accumulated buffer, the number
of reads performed, and whether a read error aborted the loop. -/
def screenshotLoop (reads : Nat → ReadOutcome) : Nat → Nat → List Nat →
    List Nat × Nat × Bool
  | _, 0, acc => (acc, 0, false)
  | k, fuel + 1, acc =>
      match reads k with
      | ReadOutcome.chunk [] => (acc, 1, false)
      | ReadOutcome.chunk d =>
          let acc2 := acc ++ d
          if containsSeq pngSig acc2 && containsSeq iendMarker acc2 then
            (acc2, 1, false)
          else
            let r := screenshotLoop reads (k + 1) fuel acc2
            (r.1, r.2.1 + 1, r.2.2)
      | ReadOutcome.timeout => (acc, 1, false)
      | ReadOutcome.fail => (acc, 1, true)

/-- How `take_screenshot` can end, as seen by the caller. -/
inductive CaptureOutcome : Type
  | complete (buf : List Nat)
  | tooSmall (len : Nat)
  | readError
deriving DecidableEq

/-- The validation/extraction step of `take_screenshot` (`core.py`
lines 360–371): buffers under 1000 bytes raise; otherwise the image is
taken from the first `\x89PNG` occurrence onward when present, and is
the raw buffer unchanged when not. -/
def finalizeCapture (image_data : List Nat) : CaptureOutcome :=
  if image_data.length < 1000 then CaptureOutcome.tooSmall image_data.length
  else
    match findSeq pngSig image_data with
    | some i => CaptureOutcome.complete (image_data.drop i)
    | none => CaptureOutcome.complete image_data

/-- The data-path of `take_screenshot`: run the chunk loop (1 KB chunks,
`max_attempts = 300`), re-raise a hard read error, then validate and
extract. Returns the outcome and the number of reads performed. -/
def take_screenshot (reads : Nat → ReadOutcome) : CaptureOutcome × Nat :=
  let r := screenshotLoop reads 0 300 []
  if r.2.2 then (CaptureOutcome.readError, r.2.1)
  else (finalizeCapture r.1, r.2.1)

/-- `findSeq` returns the index of the first occurrence: the pattern is
a prefix there and at no earlier position. -/
theorem findSeq_first (pat : List Nat) :
    ∀ buf i, findSeq pat buf = some i →
      pat.isPrefixOf (buf.drop i) = true ∧
      ∀ j, j < i → pat.isPrefixOf (buf.drop j) = false := by
  intro buf
  induction buf with
  | nil =>
      intro i h
      rcases pat with _ | ⟨p, ps⟩
      · simp [findSeq] at h
        subst h
        exact ⟨rfl, by omega⟩
      · simp [findSeq] at h
  | cons b rest ih =>
      intro i h
      by_cases hp : pat.isPrefixOf (b :: rest)
      · rw [findSeq, if_pos hp] at h
        obtain rfl := Option.some.inj h
        exact ⟨hp, by omega⟩
      · rw [findSeq, if_neg hp] at h
        rcases hr : findSeq pat rest with _ | i'
        · rw [hr] at h; simp at h
        · rw [hr] at h
          obtain rfl : i' + 1 = i := by simpa using h
          obtain ⟨h1, h2⟩ := ih i' hr
          refine ⟨h1, ?_⟩
          intro j hj
          match j with
          | 0 => exact Bool.not_eq_true _ ▸ eq_false_of_ne_true hp
          | j + 1 => exact h2 j (by omega)

/-- The signature (which starts with byte `0x89`) never occurs in an
all-zero buffer. -/
theorem findSeq_pngSig_replicate_zero :
    ∀ n, findSeq pngSig (List.replicate n 0) = none := by
  intro n
  induction n with
  | zero => rfl
  | succ n ih =>
      rw [List.replicate_succ]
      have hp : pngSig.isPrefixOf (0 :: List.replicate n 0) = false := rfl
      rw [findSeq, hp]
      simp [ih]

/-- A read oracle that always delivers four zero bytes. -/
def zeroReads : Nat → ReadOutcome := fun _ => ReadOutcome.chunk [0, 0, 0, 0]

/-- Under `zeroReads` the loop never finds a signature and always
exhausts its fuel. -/
theorem screenshotLoop_zeroReads :
    ∀ fuel k j,
      screenshotLoop zeroReads k fuel (List.replicate j 0) =
        (List.replicate (j + 4 * fuel) 0, fuel, false) := by
  intro fuel
  induction fuel with
  | zero => intro k j; simp [screenshotLoop]
  | succ fuel ih =>
      intro k j
      have hacc : List.replicate j 0 ++ [0, 0, 0, 0] = List.replicate (j + 4) 0 := by
        rw [List.replicate_add]; rfl
      have hsig : containsSeq pngSig (List.replicate (j + 4) 0) = false := by
        simp [containsSeq, findSeq_pngSig_replicate_zero]
      simp only [screenshotLoop, zeroReads]
      rw [hacc, hsig]
      simp only [Bool.false_and, if_false]
      rw [ih (k + 1) (j + 4)]
      have harith : j + 4 + 4 * fuel = j + 4 * (fuel + 1) := by ring
      rw [harith]
      simp

/-- C3 (counterexample): the claim says that when no chunk ever contains
the signature and the 300-read bound is hit, the capture fails with a
size-exceeded error; but under `zeroReads` (300 signature-free 4-byte
chunks) the code performs its 300 reads and then *completes*, saving
the 1200 accumulated bytes — no size-exceeded failure exists in the
code. -/
theorem C3_counterexample :
    take_screenshot zeroReads =
      (CaptureOutcome.complete (List.replicate 1200 0), 300) := by
  have hloop : screenshotLoop zeroReads 0 300 [] =
      (List.replicate 1200 0, 300, false) := by
    have h := screenshotLoop_zeroReads 300 0 0
    simpa using h
  have hfin : finalizeCapture (List.replicate 1200 0) =
      CaptureOutcome.complete (List.replicate 1200 0) := by
    unfold finalizeCapture
    rw [List.length_replicate, if_neg (by norm_num),
      findSeq_pngSig_replicate_zero 1200]
  have hshot : take_screenshot zeroReads =
      (finalizeCapture (List.replicate 1200 0), 300) := by
    unfold take_screenshot
    rw [hloop]
    rfl
  rw [hshot, hfin]

/-- The data carried by one read outcome (empty for timeouts and
errors). -/
def chunkData : ReadOutcome → List Nat
  | ReadOutcome.chunk d => d
  | _ => []

/-- Concatenation of the data of reads `k, k+1, …, k+j-1`. -/
def segmentChunks (reads : Nat → ReadOutcome) (k : Nat) : Nat → List Nat
  | 0 => []
  | j + 1 => chunkData (reads k) ++ segmentChunks reads (k + 1) j

/-- When every read yields a non-empty chunk and no prefix of the
accumulated data ever contains the signature, the loop consumes all its
fuel and accumulates every chunk. -/
theorem screenshotLoop_noSig (reads : Nat → ReadOutcome) :
    ∀ fuel k acc,
      (∀ j, j < fuel → ∃ d, reads (k + j) = ReadOutcome.chunk d ∧ d ≠ []) →
      (∀ j, j ≤ fuel → containsSeq pngSig (acc ++ segmentChunks reads k j) = false) →
      screenshotLoop reads k fuel acc =
        (acc ++ segmentChunks reads k fuel, fuel, false) := by
  intro fuel
  induction fuel with
  | zero =>
      intro k acc _ _
      simp [screenshotLoop, segmentChunks]
  | succ fuel ih =>
      intro k acc hne hsig
      obtain ⟨d, hd, hdne⟩ := hne 0 (by omega)
      rw [Nat.add_zero] at hd
      rcases d with _ | ⟨b, db⟩
      · exact absurd rfl hdne
      have hsig1 : containsSeq pngSig (acc ++ (b :: db)) = false := by
        have h := hsig 1 (by omega)
        simpa [segmentChunks, hd, chunkData] using h
      have hrec := ih (k + 1) (acc ++ (b :: db))
        (fun j hj => by
          have h := hne (j + 1) (by omega)
          simpa [Nat.add_assoc, Nat.add_comm 1 j] using h)
        (fun j hj => by
          have h := hsig (j + 1) (by omega)
          simpa [segmentChunks, hd, chunkData, List.append_assoc] using h)
      simp only [screenshotLoop, hd, hsig1, Bool.false_and, if_false]
      rw [hrec]
      simp [segmentChunks, hd, chunkData, List.append_assoc]

/-- C3 (amended): if the reads always deliver data (never an empty
chunk, timeout, or error) and the accumulated buffer never contains the
signature, the loop stops after exactly its 300-read bound and the
capture then *completes* with all accumulated data when it reaches the
1000-byte minimum, failing only the too-small validation otherwise —
there is no size-exceeded error. -/
theorem C3_amended (reads : Nat → ReadOutcome)
    (hne : ∀ k, k < 300 → ∃ d, reads k = ReadOutcome.chunk d ∧ d ≠ [])
    (hsig : ∀ n, n ≤ 300 → containsSeq pngSig (segmentChunks reads 0 n) = false) :
    (take_screenshot reads).2 = 300 ∧
    ((segmentChunks reads 0 300).length < 1000 →
      (take_screenshot reads).1 =
        CaptureOutcome.tooSmall (segmentChunks reads 0 300).length) ∧
    (1000 ≤ (segmentChunks reads 0 300).length →
      (take_screenshot reads).1 =
        CaptureOutcome.complete (segmentChunks reads 0 300)) := by
  have hloop : screenshotLoop reads 0 300 [] =
      (segmentChunks reads 0 300, 300, false) := by
    have h := screenshotLoop_noSig reads 300 0 []
      (fun j hj => by simpa using hne j hj)
      (fun j hj => by simpa using hsig j hj)
    simpa using h
  refine ⟨by simp [take_screenshot, hloop], fun hsmall => ?_, fun hbig => ?_⟩
  · simp [take_screenshot, hloop, finalizeCapture, hsmall]
  · have hfind : findSeq pngSig (segmentChunks reads 0 300) = none := by
      have h := hsig 300 (by omega)
      rcases hca : findSeq pngSig (segmentChunks reads 0 300) with _ | i
      · rfl
      · rw [containsSeq, hca] at h
        simp at h
    simp [take_screenshot, hloop, finalizeCapture, hfind, Nat.not_lt.mpr hbig]

/-- A read oracle that always delivers a single zero byte. -/
def oneZeroReads : Nat → ReadOutcome := fun _ => ReadOutcome.chunk [0]

/-- Under `oneZeroReads` the accumulated data is all zeros. -/
theorem segmentChunks_oneZero :
    ∀ n k, segmentChunks oneZeroReads k n = List.replicate n 0 := by
  intro n
  induction n with
  | zero => intro k; rfl
  | succ n ih =>
      intro k
      simp [segmentChunks, oneZeroReads, chunkData, ih, List.replicate_succ]

/-- C3 (witness for the amended theorem): 300 one-byte signature-free
chunks produce exactly 300 reads and a too-small failure at 300 bytes. -/
theorem C3_witness :
    (take_screenshot oneZeroReads).2 = 300 ∧
    (take_screenshot oneZeroReads).1 = CaptureOutcome.tooSmall 300 := by
  obtain ⟨h1, h2, h3⟩ := C3_amended oneZeroReads
    (fun k _ => ⟨[0], rfl, by simp⟩)
    (fun n _ => by
      simp [segmentChunks_oneZero, containsSeq, findSeq_pngSig_replicate_zero])
  refine ⟨h1, ?_⟩
  have h := h2 (by simp [segmentChunks_oneZero])
  simpa [segmentChunks_oneZero] using h

/-- C5 (counterexample): the claim says a capture whose buffer lacks the
signature completes with the buffer unchanged; but when the very first
read times out the accumulated buffer is empty (no signature), and the
capture *fails* the 1000-byte minimum-size validation instead of
completing. -/
theorem C5_counterexample :
    (take_screenshot (fun _ => ReadOutcome.timeout)).1 =
      CaptureOutcome.tooSmall 0 ∧
    containsSeq pngSig [] = false := by
  exact ⟨rfl, rfl⟩

/-- C5 (amended): for every accumulated buffer that passes the 1000-byte
minimum-size validation, when the signature occurs the completed
capture's output starts exactly at its first occurrence (the signature
is a prefix there and at no earlier index, all preceding bytes
discarded), and when it does not occur the output is the buffer
unchanged and the capture still completes; buffers under 1000 bytes
fail validation instead, signature or not. -/
theorem C5_amended (buf : List Nat) (h : 1000 ≤ buf.length) :
    (∀ i, findSeq pngSig buf = some i →
      finalizeCapture buf = CaptureOutcome.complete (buf.drop i) ∧
      pngSig.isPrefixOf (buf.drop i) = true ∧
      ∀ j, j < i → pngSig.isPrefixOf (buf.drop j) = false) ∧
    (findSeq pngSig buf = none →
      finalizeCapture buf = CaptureOutcome.complete buf) := by
  have hlt : ¬ buf.length < 1000 := by omega
  constructor
  · intro i hi
    exact ⟨by simp [finalizeCapture, hlt, hi],
      (findSeq_first pngSig buf i hi).1, (findSeq_first pngSig buf i hi).2⟩
  · intro hn
    simp [finalizeCapture, hlt, hn]

/-- A 1000-byte buffer that starts with the signature. -/
def sigBuf : List Nat := pngSig ++ List.replicate 996 0

/-- C5 (witness for the amended theorem), at a 1000-byte buffer whose
signature sits at index 0. -/
theorem C5_witness :
    finalizeCapture sigBuf = CaptureOutcome.complete (sigBuf.drop 0) ∧
    pngSig.isPrefixOf (sigBuf.drop 0) = true ∧
    ∀ j, j < 0 → pngSig.isPrefixOf (sigBuf.drop j) = false :=
  (C5_amended sigBuf (by decide)).1 0 (by decide)

/-- The connection configuration fields touched by `take_screenshot`
(`timeout`, `read_termination`, `write_termination`), plus a stand-in
for every other piece of connection configuration. -/
structure ConnSettings where
  timeout : ℚ
  read_termination : Option String
  write_termination : Option String
  other : Nat

/-- The save/restore block of `take_screenshot`: write the three
original values back. -/
def restoreSettings (s orig : ConnSettings) : ConnSettings :=
  { s with
    timeout := orig.timeout
    read_termination := orig.read_termination
    write_termination := orig.write_termination }

/-- Connection-settings trace of the whole `take_screenshot` method.
`failCLS`, `failOPC`, `failDISP`, `failSave` say whether the `*CLS`
write, the `*OPC?` query, the `DISP:DATA?` write, or the final file
save raises; `reads` drives the chunk loop (including a re-raised read
error). Mirrors the source: switch to binary mode (timeout 17000 ms,
`read_termination = None`, `write_termination = '\n'`), set
`read_termination = None` again after the text query, restore the three
saved fields after the loop on the normal path, and restore them in the
`except` handler on every raising path. Returns the settings after the
call and whether it completed. -/
def take_screenshot_conn (s0 : ConnSettings)
    (failCLS failOPC failDISP failSave : Bool) (reads : Nat → ReadOutcome) :
    ConnSettings × Bool :=
  let s1 : ConnSettings :=
    { s0 with
      timeout := 17000
      read_termination := none
      write_termination := some "\n" }
  if failCLS then (restoreSettings s1 s0, false)
  else if failOPC then (restoreSettings s1 s0, false)
  else
    let s2 : ConnSettings := { s1 with read_termination := none }
    if failDISP then (restoreSettings s2 s0, false)
    else
      let r := screenshotLoop reads 0 300 []
      let s3 := restoreSettings s2 s0
      if r.2.2 then (s3, false)
      else if r.1.length < 1000 then (s3, false)
      else (s3, !failSave)

/-- C6: on every exit path of `take_screenshot` — completion, failed
validation, or an exception at any modelled fallible step — the
connection's timeout, read termination and write termination equal
their values from before the call, and all other connection
configuration is untouched. -/
theorem C6_settings_restored (s0 : ConnSettings)
    (failCLS failOPC failDISP failSave : Bool) (reads : Nat → ReadOutcome) :
    (take_screenshot_conn s0 failCLS failOPC failDISP failSave reads).1 = s0 := by
  have hkey : ∀ (t : ℚ) (r w : Option String),
      restoreSettings
        { s0 with timeout := t, read_termination := r, write_termination := w }
        s0 = s0 := by
    intro t r w
    cases s0
    rfl
  simp only [take_screenshot_conn]
  by_cases h1 : failCLS = true
  · rw [if_pos h1]
    exact hkey _ _ _
  · rw [if_neg h1]
    by_cases h2 : failOPC = true
    · rw [if_pos h2]
      exact hkey _ _ _
    · rw [if_neg h2]
      by_cases h3 : failDISP = true
      · rw [if_pos h3]
        exact hkey _ _ _
      · rw [if_neg h3]
        by_cases h4 : (screenshotLoop reads 0 300 []).2.2 = true
        · rw [if_pos h4]
          exact hkey _ _ _
        · rw [if_neg h4]
          by_cases h5 : (screenshotLoop reads 0 300 []).1.length < 1000
          · rw [if_pos h5]
            exact hkey _ _ _
          · rw [if_neg h5]
            exact hkey _ _ _

end Rigol
